import Mathlib

/-!
# cqsh: the qsh launcher of vscode-ibmi

A shallow embedding of `src/components/cqsh/cqsh.c`:

```c
int main(int argc, char **argv)
{
	//re - initialize cached PASE converters
	_SETCCSID(Qp2paseCCSID());

	argv[0] = "/QOpenSys/usr/bin/qsh";

	return execv(argv[0], &argv[0]);
}
```

The program is straight-line code around three calls into the platform
(`Qp2paseCCSID`, `_SETCCSID`, `execv`).  The platform is a parameter of the
model: a `Platform` value fixes what each of the three calls answers in one
run.  `main` is a pure function from the platform and the argument strings to
a `Run`: the trace of platform calls, the way the run ends, and the final
contents of the `argv` array.

The `argv` array is modelled as C lays it out: `argc` string slots followed by
the null terminator `argv[argc]`.  `execv` receives a pointer into that array
and reads strings up to the first null slot.  When the array holds no null slot
any more, the read goes on in the memory after the array; what lies there is
fixed by the platform as well.
-/

namespace Cqsh

/-! ## Data model -/

/-- The string literal stored into `argv[0]` (cqsh.c, line 11). -/
def qshPath : String := "/QOpenSys/usr/bin/qsh"

/-- The `argv` array: one slot per pointer, `none` being the null pointer. -/
abbrev Argv := List (Option String)

/-- The array `main` receives for the argument strings `args`: the `argc`
strings followed by the null terminator `argv[argc]`. -/
def initialArgv (args : List String) : Argv :=
  args.map some ++ [none]

/-- The assignment `argv[i] = v`; `none` when slot `i` is outside the array. -/
def store (argv : Argv) (i : Nat) (v : Option String) : Option Argv :=
  if i < argv.length then some (argv.set i v) else none

/-- The read `argv[i]`; `none` when slot `i` is outside the array. -/
def load (argv : Argv) (i : Nat) : Option (Option String) :=
  argv.get? i

/-- The argument vector `execv` reads through a pointer to the first slot of
the array: the strings up to the first null slot.  When the slots end before a
null slot is met, the read goes on in the memory after the array, and
`beyond` is what it finds there: the strings up to the next null slot. -/
def readVector : Argv → List String → List String
  | [], beyond => beyond
  | none :: _, _ => []
  | some s :: rest, beyond => s :: readVector rest beyond

/-- What the three platform calls answer during one run.
* `Qp2paseCCSID` is the value the query returns;
* `SETCCSID c` is the value `_SETCCSID(c)` returns;
* `execv path vec` is `none` when the process image is replaced (the call
  does not return) and `some r` when the call returns `r`;
* `afterArgv` is what the slots after `argv[argc]` point to, up to the first
  null slot there (on the usual process layout, the environment strings). -/
structure Platform where
  Qp2paseCCSID : Int
  SETCCSID : Int → Int
  execv : String → List String → Option Int
  afterArgv : List String

/-- One call into the platform, with its arguments and its answer. -/
inductive Event where
  | query (ret : Int)
  | setccsid (ccsid : Int) (ret : Int)
  | execv (path : String) (argv : List String) (ret : Option Int)
  deriving DecidableEq

/-- How a run of `main` ends: the process image was replaced, `main` returned
a status, or an access to `argv[0]` fell outside the array or met a null
path. -/
inductive Outcome where
  | replaced
  | returned (status : Int)
  | fault
  deriving DecidableEq

/-- A finished run: the platform calls in order, the way the run ended and
the contents of the `argv` array at that point. -/
structure Run where
  trace : List Event
  outcome : Outcome
  argv : Argv
  deriving DecidableEq

/-! ## The program -/

/-- The function `main` of cqsh.c.  `argc` is `args.length`; the source does
not read it. -/
def main (w : Platform) (args : List String) : Run :=
  let argv0 := initialArgv args
  -- _SETCCSID(Qp2paseCCSID());
  let ccsid := w.Qp2paseCCSID
  let t := [Event.query ccsid, Event.setccsid ccsid (w.SETCCSID ccsid)]
  -- argv[0] = "/QOpenSys/usr/bin/qsh";
  match store argv0 0 (some qshPath) with
  | none => ⟨t, Outcome.fault, argv0⟩
  | some argv1 =>
    -- return execv(argv[0], &argv[0]);
    match load argv1 0 with
    | some (some path) =>
      let vec := readVector (argv1.drop 0) w.afterArgv
      match w.execv path vec with
      | none => ⟨t ++ [Event.execv path vec none], Outcome.replaced, argv1⟩
      | some r => ⟨t ++ [Event.execv path vec (some r)], Outcome.returned r, argv1⟩
    | _ => ⟨t, Outcome.fault, argv1⟩

/-! ## Observations on a run -/

/-- Is the event a call of `Qp2paseCCSID`? -/
def Event.isQuery : Event → Bool
  | Event.query _ => true
  | _ => false

/-- Is the event a call of `_SETCCSID`? -/
def Event.isSetccsid : Event → Bool
  | Event.setccsid _ _ => true
  | _ => false

/-- Is the event a call of `execv`? -/
def Event.isExecv : Event → Bool
  | Event.execv _ _ _ => true
  | _ => false

/-- The `(path, argument vector)` pairs handed to `execv`, in call order. -/
def execvCalls (t : List Event) : List (String × List String) :=
  t.filterMap (fun e =>
    match e with
    | Event.execv p v _ => some (p, v)
    | _ => none)

/-- The values handed to `_SETCCSID`, in call order. -/
def setccsidArgs (t : List Event) : List Int :=
  t.filterMap (fun e =>
    match e with
    | Event.setccsid c _ => some c
    | _ => none)

/-- The values `Qp2paseCCSID` returned, in call order. -/
def queryResults (t : List Event) : List Int :=
  t.filterMap (fun e =>
    match e with
    | Event.query c => some c
    | _ => none)

/-- The value an `exec` function returns when it fails (POSIX: the call
returns only on error, and the value is then -1). -/
def execvError : Int := -1

/-- The exit status the invoking environment observes for a value returned
from `main`: its low 8 bits (POSIX `status & 0377`). -/
def exitStatus (ret : Int) : Int := ret % 256

/-- The exit status observed for a run, when `main` returned. -/
def observedStatus : Outcome → Option Int
  | Outcome.returned r => some (exitStatus r)
  | _ => none

/-! ## Sample platforms and argument vectors -/

/-- A platform on which the target is missing: `execv` returns -1.  The
default CCSID is 819 and `_SETCCSID` answers the previous CCSID 1208. -/
def missingTarget : Platform :=
  ⟨819, fun _ => 1208, fun _ _ => some (-1), ["HOME=/home/dev", "LANG=C"]⟩

/-- As `missingTarget`, but the CCSID is 1208 and `_SETCCSID` itself fails
(returns -1). -/
def fixupFails : Platform :=
  ⟨1208, fun _ => -1, fun _ _ => some (-1), ["HOME=/home/dev", "LANG=C"]⟩

/-- A platform on which the target is present: `execv` does not return. -/
def presentTarget : Platform :=
  ⟨1208, fun _ => 819, fun _ _ => none, ["PATH=/QOpenSys/usr/bin"]⟩

/-- The invocation `launcher -c "echo hi"`. -/
def echoArgs : List String := ["launcher", "-c", "echo hi"]

/-- The invocation `launcher` with no further argument. -/
def bareArgs : List String := ["launcher"]

/-! ## Basic facts about the embedding -/

theorem readVector_initialArgv (args beyond : List String) :
    readVector (initialArgv args) beyond = args := by
  induction args with
  | nil => rfl
  | cons a rest ih =>
    show a :: readVector (initialArgv rest) beyond = a :: rest
    rw [ih]

/-- The run of `main` on an empty argument vector: the store lands on the
terminator slot, and the vector `execv` reads runs on into the memory after
the array. -/
theorem main_nil (w : Platform) :
    main w [] =
      match w.execv qshPath (qshPath :: w.afterArgv) with
      | none =>
        ⟨[Event.query w.Qp2paseCCSID,
          Event.setccsid w.Qp2paseCCSID (w.SETCCSID w.Qp2paseCCSID),
          Event.execv qshPath (qshPath :: w.afterArgv) none],
         Outcome.replaced, [some qshPath]⟩
      | some r =>
        ⟨[Event.query w.Qp2paseCCSID,
          Event.setccsid w.Qp2paseCCSID (w.SETCCSID w.Qp2paseCCSID),
          Event.execv qshPath (qshPath :: w.afterArgv) (some r)],
         Outcome.returned r, [some qshPath]⟩ := by
  rfl

/-- The run of `main` on an argument vector with a first element. -/
theorem main_cons (w : Platform) (a : String) (rest : List String) :
    main w (a :: rest) =
      match w.execv qshPath (qshPath :: rest) with
      | none =>
        ⟨[Event.query w.Qp2paseCCSID,
          Event.setccsid w.Qp2paseCCSID (w.SETCCSID w.Qp2paseCCSID),
          Event.execv qshPath (qshPath :: rest) none],
         Outcome.replaced, some qshPath :: (rest.map some ++ [none])⟩
      | some r =>
        ⟨[Event.query w.Qp2paseCCSID,
          Event.setccsid w.Qp2paseCCSID (w.SETCCSID w.Qp2paseCCSID),
          Event.execv qshPath (qshPath :: rest) (some r)],
         Outcome.returned r, some qshPath :: (rest.map some ++ [none])⟩ := by
  have hv : readVector (rest.map some ++ [none]) w.afterArgv = rest :=
    readVector_initialArgv rest w.afterArgv
  simp only [main, initialArgv, store, load, List.map_cons, List.cons_append,
    List.length_cons, Nat.zero_lt_succ, if_true, List.set_cons_zero, List.drop_zero,
    List.get?_cons_zero, readVector, hv]
  cases w.execv qshPath (qshPath :: rest) <;> rfl

/-- The trace of `main` on an empty argument vector. -/
theorem main_nil_trace (w : Platform) :
    (main w []).trace =
      [Event.query w.Qp2paseCCSID,
       Event.setccsid w.Qp2paseCCSID (w.SETCCSID w.Qp2paseCCSID),
       Event.execv qshPath (qshPath :: w.afterArgv)
         (w.execv qshPath (qshPath :: w.afterArgv))] := by
  rw [main_nil]
  cases w.execv qshPath (qshPath :: w.afterArgv) <;> rfl

/-- The way `main` ends on an empty argument vector. -/
theorem main_nil_outcome (w : Platform) :
    (main w []).outcome =
      match w.execv qshPath (qshPath :: w.afterArgv) with
      | none => Outcome.replaced
      | some r => Outcome.returned r := by
  rw [main_nil]
  cases w.execv qshPath (qshPath :: w.afterArgv) <;> rfl

/-- The `argv` array `main` leaves behind on an empty argument vector. -/
theorem main_nil_argv (w : Platform) :
    (main w []).argv = [some qshPath] := by
  rw [main_nil]
  cases w.execv qshPath (qshPath :: w.afterArgv) <;> rfl

theorem exists_cons_of_one_le_length (args : List String) (h : 1 ≤ args.length) :
    ∃ a rest, args = a :: rest := by
  cases args with
  | nil => simp at h
  | cons a rest => exact ⟨a, rest, rfl⟩

/-- The trace of `main` on an argument vector with a first element. -/
theorem main_cons_trace (w : Platform) (a : String) (rest : List String) :
    (main w (a :: rest)).trace =
      [Event.query w.Qp2paseCCSID,
       Event.setccsid w.Qp2paseCCSID (w.SETCCSID w.Qp2paseCCSID),
       Event.execv qshPath (qshPath :: rest) (w.execv qshPath (qshPath :: rest))] := by
  rw [main_cons]
  cases w.execv qshPath (qshPath :: rest) <;> rfl

/-- The way `main` ends on an argument vector with a first element. -/
theorem main_cons_outcome (w : Platform) (a : String) (rest : List String) :
    (main w (a :: rest)).outcome =
      match w.execv qshPath (qshPath :: rest) with
      | none => Outcome.replaced
      | some r => Outcome.returned r := by
  rw [main_cons]
  cases w.execv qshPath (qshPath :: rest) <;> rfl

/-- The `argv` array `main` leaves behind on an argument vector with a first
element. -/
theorem main_cons_argv (w : Platform) (a : String) (rest : List String) :
    (main w (a :: rest)).argv = some qshPath :: (rest.map some ++ [none]) := by
  rw [main_cons]
  cases w.execv qshPath (qshPath :: rest) <;> rfl

/-- A failed `execv` call in the trace of `main` on an argument vector with a
first element is the one call `main` makes there. -/
theorem failed_execv_cons (w : Platform) (a : String) (rest : List String)
    (p : String) (v : List String) (r : Int)
    (hfail : Event.execv p v (some r) ∈ (main w (a :: rest)).trace) :
    p = qshPath ∧ v = qshPath :: rest ∧ w.execv qshPath (qshPath :: rest) = some r := by
  rw [main_cons_trace] at hfail
  simp only [List.mem_cons, List.mem_singleton, Event.execv.injEq, List.not_mem_nil,
    or_false, false_or, reduceCtorEq] at hfail
  obtain ⟨hp, hv, hr⟩ := hfail
  subst hp; subst hv
  exact ⟨rfl, rfl, hr.symm⟩

/-- The value a failed `execv` call of the trace returned is what `main`
returns. -/
theorem failed_execv_outcome (w : Platform) (args : List String) (p : String)
    (v : List String) (r : Int)
    (hfail : Event.execv p v (some r) ∈ (main w args).trace) :
    (main w args).outcome = Outcome.returned r := by
  cases args with
  | nil =>
    rw [main_nil_trace] at hfail
    simp only [List.mem_cons, List.mem_singleton, Event.execv.injEq, List.not_mem_nil,
      or_false, false_or, reduceCtorEq] at hfail
    rw [main_nil_outcome, ← hfail.2.2]
  | cons a rest =>
    obtain ⟨-, -, hr⟩ := failed_execv_cons w a rest p v r hfail
    rw [main_cons_outcome, hr]

/-! ## The claims -/

/-- C1: for every argument vector `args` with at least one element, `main`
hands to `execv` exactly the vector `qshPath :: args[1:]`: element 0 is the
fixed target path, the vector is as long as `args`, and every position
`i ≥ 1` holds `args[i]`. -/
theorem main_forwards_args (w : Platform) (args : List String)
    (h : 1 ≤ args.length) :
    execvCalls (main w args).trace = [(qshPath, qshPath :: args.drop 1)] ∧
    ∀ pv ∈ execvCalls (main w args).trace,
      pv.2[0]? = some "/QOpenSys/usr/bin/qsh" ∧
      pv.2.length = args.length ∧
      ∀ i, 1 ≤ i → pv.2[i]? = args[i]? := by
  obtain ⟨a, rest, rfl⟩ := exists_cons_of_one_le_length args h
  have hc : execvCalls (main w (a :: rest)).trace = [(qshPath, qshPath :: rest)] := by
    rw [main_cons_trace]; rfl
  refine ⟨by simpa using hc, ?_⟩
  intro pv hpv
  rw [hc, List.mem_singleton] at hpv
  subst hpv
  refine ⟨by simp [qshPath], by simp, ?_⟩
  intro i hi
  obtain ⟨k, rfl⟩ : ∃ k, i = k + 1 := ⟨i - 1, by omega⟩
  simp

/-- Witness for C1: `launcher -c "echo hi"` forwards `[target, "-c", "echo hi"]`
and `launcher` alone forwards `[target]`. -/
theorem main_forwards_args_witness :
    execvCalls (main presentTarget echoArgs).trace =
        [("/QOpenSys/usr/bin/qsh", ["/QOpenSys/usr/bin/qsh", "-c", "echo hi"])] ∧
    execvCalls (main missingTarget bareArgs).trace =
        [("/QOpenSys/usr/bin/qsh", ["/QOpenSys/usr/bin/qsh"])] :=
  ⟨(main_forwards_args presentTarget echoArgs (by decide)).1,
   (main_forwards_args missingTarget bareArgs (by decide)).1⟩

/-- C2: for every argument vector with at least one element, if the `execv`
call fails, returning its error indicator, then `main` returns that indicator
as its status, and the status is not zero, neither as returned nor as observed
by the invoking environment. -/
theorem main_returns_execv_error (w : Platform) (args : List String)
    (p : String) (v : List String)
    (h : 1 ≤ args.length)
    (hfail : Event.execv p v (some execvError) ∈ (main w args).trace) :
    (main w args).outcome = Outcome.returned execvError ∧
    (main w args).outcome ≠ Outcome.returned 0 ∧
    (main w args).outcome ≠ Outcome.replaced ∧
    observedStatus (main w args).outcome ≠ some 0 := by
  obtain ⟨a, rest, rfl⟩ := exists_cons_of_one_le_length args h
  obtain ⟨-, -, hr⟩ := failed_execv_cons w a rest p v execvError hfail
  have ho : (main w (a :: rest)).outcome = Outcome.returned execvError := by
    rw [main_cons_outcome, hr]
  rw [ho]
  refine ⟨rfl, ?_, ?_, ?_⟩
  · simp [execvError]
  · simp
  · simp [observedStatus, exitStatus, execvError]

/-- Witness for C2: on a platform where the target is missing, `launcher`
returns -1. -/
theorem main_returns_execv_error_witness :
    (main missingTarget bareArgs).outcome = Outcome.returned (-1) ∧
    (main missingTarget bareArgs).outcome ≠ Outcome.returned 0 ∧
    (main missingTarget bareArgs).outcome ≠ Outcome.replaced ∧
    observedStatus (main missingTarget bareArgs).outcome ≠ some 0 :=
  main_returns_execv_error missingTarget bareArgs qshPath [qshPath] (by decide)
    (List.Mem.tail _ (List.Mem.tail _ (List.Mem.head _)))

/-- C3: for every argument vector and every platform, the trace of `main`
holds exactly one `_SETCCSID` call, that call comes strictly before every
`execv` call of the trace, and an `execv` call is in the trace as soon as the
argument vector has a first element. -/
theorem main_setccsid_once_before_execv (w : Platform) (args : List String) :
    ((main w args).trace.filter Event.isSetccsid).length = 1 ∧
    (∀ (i j : Nat) (e₁ e₂ : Event), (main w args).trace[i]? = some e₁ → (main w args).trace[j]? = some e₂ →
      e₁.isSetccsid = true → e₂.isExecv = true → i < j) ∧
    (1 ≤ args.length → ((main w args).trace.filter Event.isExecv).length = 1) := by
  cases args with
  | nil =>
    rw [main_nil_trace]
    refine ⟨rfl, ?_, fun _ => rfl⟩
    intro i j e₁ e₂ h₁ h₂ hs he
    rcases i with _ | _ | _ | i
    · simp at h₁; subst h₁; simp [Event.isSetccsid] at hs
    · rcases j with _ | _ | j
      · simp at h₂; subst h₂; simp [Event.isExecv] at he
      · simp at h₂; subst h₂; simp [Event.isExecv] at he
      · omega
    · simp at h₁; subst h₁; simp [Event.isSetccsid] at hs
    · simp at h₁
  | cons a rest =>
    rw [main_cons_trace]
    refine ⟨rfl, ?_, fun _ => rfl⟩
    intro i j e₁ e₂ h₁ h₂ hs he
    rcases i with _ | _ | _ | i
    · simp at h₁; subst h₁; simp [Event.isSetccsid] at hs
    · rcases j with _ | _ | j
      · simp at h₂; subst h₂; simp [Event.isExecv] at he
      · simp at h₂; subst h₂; simp [Event.isExecv] at he
      · omega
    · simp at h₁; subst h₁; simp [Event.isSetccsid] at hs
    · simp at h₁

/-- Witness for C3: the trace of `launcher -c "echo hi"` on a platform whose
fix-up call fails has one `_SETCCSID` call and one `execv` call. -/
theorem main_setccsid_once_before_execv_witness :
    ((main fixupFails echoArgs).trace.filter Event.isSetccsid).length = 1 ∧
    ((main fixupFails echoArgs).trace.filter Event.isExecv).length = 1 :=
  ⟨(main_setccsid_once_before_execv fixupFails echoArgs).1,
   (main_setccsid_once_before_execv fixupFails echoArgs).2.2 (by decide)⟩

/-- C4: the result of `_SETCCSID` is ignored.  For every argument vector with
a first element and any two platforms, however their query and fix-up calls
answer, both runs make the one `execv` call with the same path and the same
vector; and when `execv` answers that call alike on both, both runs end
alike. -/
theorem main_ignores_setccsid_result (w₁ w₂ : Platform) (args : List String)
    (h : 1 ≤ args.length)
    (hexec : w₁.execv qshPath (qshPath :: args.drop 1) =
      w₂.execv qshPath (qshPath :: args.drop 1)) :
    execvCalls (main w₁ args).trace = [(qshPath, qshPath :: args.drop 1)] ∧
    execvCalls (main w₂ args).trace = [(qshPath, qshPath :: args.drop 1)] ∧
    (main w₁ args).outcome = (main w₂ args).outcome := by
  obtain ⟨a, rest, rfl⟩ := exists_cons_of_one_le_length args h
  simp only [List.drop_succ_cons, List.drop_zero] at hexec ⊢
  refine ⟨?_, ?_, ?_⟩
  · rw [main_cons_trace]; rfl
  · rw [main_cons_trace]; rfl
  · rw [main_cons_outcome, main_cons_outcome, hexec]

/-- Witness for C4: a platform whose fix-up call succeeds and one whose fix-up
call fails make the same `execv` call and end alike. -/
theorem main_ignores_setccsid_result_witness :
    missingTarget.SETCCSID missingTarget.Qp2paseCCSID ≠
      fixupFails.SETCCSID fixupFails.Qp2paseCCSID ∧
    execvCalls (main missingTarget echoArgs).trace =
      [("/QOpenSys/usr/bin/qsh", ["/QOpenSys/usr/bin/qsh", "-c", "echo hi"])] ∧
    execvCalls (main fixupFails echoArgs).trace =
      [("/QOpenSys/usr/bin/qsh", ["/QOpenSys/usr/bin/qsh", "-c", "echo hi"])] ∧
    (main missingTarget echoArgs).outcome = (main fixupFails echoArgs).outcome :=
  ⟨by decide, main_ignores_setccsid_result missingTarget fixupFails echoArgs (by decide) rfl⟩

/-- C5: for every argument vector with a first element, `main` calls `execv`
exactly once, on every platform, so also where the call fails; the path of
every `execv` call is the fixed absolute path `/QOpenSys/usr/bin/qsh`, which is
also element 0 of the vector passed along. -/
theorem main_execv_once_fixed_path (w : Platform) (args : List String)
    (h : 1 ≤ args.length) :
    ((main w args).trace.filter Event.isExecv).length = 1 ∧
    (execvCalls (main w args).trace).map Prod.fst = ["/QOpenSys/usr/bin/qsh"] ∧
    (∀ (p : String) (v : List String) (r : Option Int),
      Event.execv p v r ∈ (main w args).trace →
        p = "/QOpenSys/usr/bin/qsh" ∧ v[0]? = some p) ∧
    qshPath.data.head? = some '/' := by
  obtain ⟨a, rest, rfl⟩ := exists_cons_of_one_le_length args h
  rw [main_cons_trace]
  refine ⟨rfl, rfl, ?_, rfl⟩
  intro p v r hmem
  simp only [List.mem_cons, List.mem_singleton, Event.execv.injEq, List.not_mem_nil,
    or_false, false_or, reduceCtorEq] at hmem
  obtain ⟨hp, hv, -⟩ := hmem
  subst hp; subst hv
  exact ⟨rfl, by simp⟩

/-- Witness for C5: with the target missing, `launcher -c "echo hi"` makes one
`execv` call, on `/QOpenSys/usr/bin/qsh`. -/
theorem main_execv_once_fixed_path_witness :
    ((main missingTarget echoArgs).trace.filter Event.isExecv).length = 1 ∧
    (execvCalls (main missingTarget echoArgs).trace).map Prod.fst =
      ["/QOpenSys/usr/bin/qsh"] :=
  ⟨(main_execv_once_fixed_path missingTarget echoArgs (by decide)).1,
   (main_execv_once_fixed_path missingTarget echoArgs (by decide)).2.1⟩

/-- C6: in every run the query `Qp2paseCCSID` is made once, the one value
passed to `_SETCCSID` is the value that query returned, unchanged, and the
query comes before the `_SETCCSID` call: the trace starts with the query
followed by the `_SETCCSID` call on its result. -/
theorem main_setccsid_gets_query_result (w : Platform) (args : List String) :
    queryResults (main w args).trace = [w.Qp2paseCCSID] ∧
    setccsidArgs (main w args).trace = queryResults (main w args).trace ∧
    ((main w args).trace.filter Event.isQuery).length = 1 ∧
    (main w args).trace.take 2 =
      [Event.query w.Qp2paseCCSID,
       Event.setccsid w.Qp2paseCCSID (w.SETCCSID w.Qp2paseCCSID)] ∧
    (∀ (i j : Nat) (e₁ e₂ : Event),
      (main w args).trace[i]? = some e₁ → (main w args).trace[j]? = some e₂ →
      e₁.isQuery = true → e₂.isSetccsid = true → i < j) := by
  cases args with
  | nil =>
    rw [main_nil_trace]
    refine ⟨rfl, rfl, rfl, rfl, ?_⟩
    intro i j e₁ e₂ h₁ h₂ hq hs
    rcases i with _ | _ | _ | i
    · rcases j with _ | j
      · simp at h₂; subst h₂; simp [Event.isSetccsid] at hs
      · omega
    · simp at h₁; subst h₁; simp [Event.isQuery] at hq
    · simp at h₁; subst h₁; simp [Event.isQuery] at hq
    · simp at h₁
  | cons a rest =>
    rw [main_cons_trace]
    refine ⟨rfl, rfl, rfl, rfl, ?_⟩
    intro i j e₁ e₂ h₁ h₂ hq hs
    rcases i with _ | _ | _ | i
    · rcases j with _ | j
      · simp at h₂; subst h₂; simp [Event.isSetccsid] at hs
      · omega
    · simp at h₁; subst h₁; simp [Event.isQuery] at hq
    · simp at h₁; subst h₁; simp [Event.isQuery] at hq
    · simp at h₁

/-- C7: for every argument vector with a first element, when the `execv` call
fails the whole trace of `main` is one query, one `_SETCCSID` call and the one
failed `execv` call, and `main` returns the non-zero error indicator. -/
theorem main_failed_run_trace (w : Platform) (args : List String)
    (p : String) (v : List String)
    (h : 1 ≤ args.length)
    (hfail : Event.execv p v (some execvError) ∈ (main w args).trace) :
    (main w args).trace =
      [Event.query w.Qp2paseCCSID,
       Event.setccsid w.Qp2paseCCSID (w.SETCCSID w.Qp2paseCCSID),
       Event.execv qshPath (qshPath :: args.drop 1) (some execvError)] ∧
    (main w args).outcome = Outcome.returned execvError ∧
    execvError ≠ 0 := by
  obtain ⟨a, rest, rfl⟩ := exists_cons_of_one_le_length args h
  obtain ⟨-, -, hr⟩ := failed_execv_cons w a rest p v execvError hfail
  simp only [List.drop_succ_cons, List.drop_zero]
  refine ⟨?_, ?_, by decide⟩
  · rw [main_cons_trace, hr]
  · rw [main_cons_outcome, hr]

/-- Witness for C7: the trace of `launcher -c "echo hi"` with the target
missing. -/
theorem main_failed_run_trace_witness :
    (main missingTarget echoArgs).trace =
      [Event.query 819, Event.setccsid 819 1208,
       Event.execv "/QOpenSys/usr/bin/qsh" ["/QOpenSys/usr/bin/qsh", "-c", "echo hi"]
         (some (-1))] ∧
    (main missingTarget echoArgs).outcome = Outcome.returned (-1) ∧
    execvError ≠ 0 :=
  main_failed_run_trace missingTarget echoArgs qshPath (qshPath :: echoArgs.drop 1)
    (by decide) (List.Mem.tail _ (List.Mem.tail _ (List.Mem.head _)))

/-- C8: forwarding is deterministic.  Two runs of `main` on the same argument
vector with a first element hand the same path and the same argument vector,
`qshPath` and `qshPath :: args[1:]`, to `execv`, whatever the two platforms
answer to the query, to `_SETCCSID` and to `execv`. -/
theorem main_forwarding_deterministic (w₁ w₂ : Platform) (args : List String)
    (h : 1 ≤ args.length) :
    execvCalls (main w₁ args).trace = [(qshPath, qshPath :: args.drop 1)] ∧
    execvCalls (main w₂ args).trace = [(qshPath, qshPath :: args.drop 1)] ∧
    execvCalls (main w₁ args).trace = execvCalls (main w₂ args).trace := by
  obtain ⟨a, rest, rfl⟩ := exists_cons_of_one_le_length args h
  have h₁ : execvCalls (main w₁ (a :: rest)).trace = [(qshPath, qshPath :: rest)] := by
    rw [main_cons_trace]; rfl
  have h₂ : execvCalls (main w₂ (a :: rest)).trace = [(qshPath, qshPath :: rest)] := by
    rw [main_cons_trace]; rfl
  simp only [List.drop_succ_cons, List.drop_zero]
  exact ⟨h₁, h₂, h₁.trans h₂.symm⟩

/-- Witness for C8: a run of `launcher -c "echo hi"` with the target present
and CCSID 1208 and a run with the target missing and CCSID 819 forward the
same path and vector. -/
theorem main_forwarding_deterministic_witness :
    presentTarget.Qp2paseCCSID ≠ missingTarget.Qp2paseCCSID ∧
    execvCalls (main presentTarget echoArgs).trace =
      [("/QOpenSys/usr/bin/qsh", ["/QOpenSys/usr/bin/qsh", "-c", "echo hi"])] ∧
    execvCalls (main missingTarget echoArgs).trace =
      [("/QOpenSys/usr/bin/qsh", ["/QOpenSys/usr/bin/qsh", "-c", "echo hi"])] ∧
    execvCalls (main presentTarget echoArgs).trace =
      execvCalls (main missingTarget echoArgs).trace :=
  ⟨by decide, main_forwarding_deterministic presentTarget missingTarget echoArgs (by decide)⟩

/-- C9, as the code has it: on every argument vector the store `argv[0] = ...`
lands inside the array and succeeds, no slot other than slot 0 changes, and
the run makes its one `execv` call.  When the argument vector has a first
element, slot 0 held that element and `execv` gets `qshPath :: args[1:]`.
When the argument vector is empty there is no element at index 0: slot 0 held
the null terminator, the array is left without a null slot, and `execv` gets
`qshPath` followed by what lies after the array. -/
theorem main_store_slot_zero (w : Platform) (args : List String) :
    (store (initialArgv args) 0 (some qshPath) = some (main w args).argv ∧
      (main w args).argv[0]? = some (some qshPath) ∧
      (∀ i, 1 ≤ i → (main w args).argv[i]? = (initialArgv args)[i]?) ∧
      ((main w args).trace.filter Event.isExecv).length = 1 ∧
      (main w args).outcome ≠ Outcome.fault) ∧
    (1 ≤ args.length →
      (∃ a, args[0]? = some a ∧ (initialArgv args)[0]? = some (some a)) ∧
      ∃ r, Event.execv qshPath (qshPath :: args.drop 1) r ∈ (main w args).trace) ∧
    (args = [] →
      args[0]? = none ∧
      (initialArgv args)[0]? = some none ∧
      (main w args).argv = [some qshPath] ∧
      ∃ r, Event.execv qshPath (qshPath :: w.afterArgv) r ∈ (main w args).trace) := by
  refine ⟨?_, ?_, ?_⟩
  · cases args with
    | nil =>
      refine ⟨?_, ?_, ?_, ?_, ?_⟩
      · rw [main_nil_argv]; simp [store, initialArgv]
      · rw [main_nil_argv]; simp
      · intro i hi
        obtain ⟨k, rfl⟩ : ∃ k, i = k + 1 := ⟨i - 1, by omega⟩
        rw [main_nil_argv]
        simp [initialArgv]
      · rw [main_nil_trace]; rfl
      · rw [main_nil_outcome]
        cases w.execv qshPath (qshPath :: w.afterArgv) <;> simp
    | cons a rest =>
      refine ⟨?_, ?_, ?_, ?_, ?_⟩
      · rw [main_cons_argv]; simp [store, initialArgv]
      · rw [main_cons_argv]; simp
      · intro i hi
        obtain ⟨k, rfl⟩ : ∃ k, i = k + 1 := ⟨i - 1, by omega⟩
        rw [main_cons_argv]
        simp [initialArgv]
      · rw [main_cons_trace]; rfl
      · rw [main_cons_outcome]
        cases w.execv qshPath (qshPath :: rest) <;> simp
  · intro h
    obtain ⟨a, rest, rfl⟩ := exists_cons_of_one_le_length args h
    refine ⟨⟨a, by simp, by simp [initialArgv]⟩, w.execv qshPath (qshPath :: rest), ?_⟩
    rw [main_cons_trace]
    simp
  · intro h
    subst h
    refine ⟨by simp, by simp [initialArgv], main_nil_argv w, ?_⟩
    refine ⟨w.execv qshPath (qshPath :: w.afterArgv), ?_⟩
    rw [main_nil_trace]
    simp

/-- Witness for C9 as amended: `launcher -c "echo hi"` leaves the array
`[target, "-c", "echo hi", null]` behind, and the empty argument vector leaves
`[target]`, with no null slot. -/
theorem main_store_slot_zero_witness :
    (main presentTarget echoArgs).argv =
      [some "/QOpenSys/usr/bin/qsh", some "-c", some "echo hi", none] ∧
    (∃ r, Event.execv qshPath (qshPath :: echoArgs.drop 1) r ∈
      (main presentTarget echoArgs).trace) ∧
    (main presentTarget []).argv = [some "/QOpenSys/usr/bin/qsh"] :=
  ⟨(Option.some.inj (main_store_slot_zero presentTarget echoArgs).1.1).symm,
   ((main_store_slot_zero presentTarget echoArgs).2.1 (by decide)).2,
   ((main_store_slot_zero presentTarget []).2.2 rfl).2.2.1⟩

/-- Counterexample to C9 as stated: having a first element is not necessary
for the store to succeed inside the array, for all other slots to stay
unwritten and for the run to reach the `execv` call.  All three hold on the
empty argument vector (`argc = 0`), where the store hits the terminator
slot. -/
theorem store_precondition_not_necessary :
    ¬ (∀ (w : Platform) (args : List String),
        (store (initialArgv args) 0 (some qshPath) = some (main w args).argv ∧
          (∀ i, 1 ≤ i → (main w args).argv[i]? = (initialArgv args)[i]?) ∧
          (∃ p v r, Event.execv p v r ∈ (main w args).trace)) →
        1 ≤ args.length) := by
  intro hnec
  have h := hnec missingTarget [] ⟨by rw [main_nil_argv]; rfl, ?_, ?_⟩
  · simp at h
  · intro i hi
    obtain ⟨k, rfl⟩ : ∃ k, i = k + 1 := ⟨i - 1, by omega⟩
    rw [main_nil_argv]
    simp [initialArgv]
  · exact ⟨qshPath, qshPath :: missingTarget.afterArgv, some (-1),
      List.Mem.tail _ (List.Mem.tail _ (List.Mem.head _))⟩

/-- C10: when `execv` fails with the error indicator -1, `main` returns -1 and
the exit status the invoking environment observes, the low 8 bits of that
value, is 255, which is not zero. -/
theorem main_exit_status_255 (w : Platform) (args : List String)
    (p : String) (v : List String)
    (hfail : Event.execv p v (some (-1)) ∈ (main w args).trace) :
    (main w args).outcome = Outcome.returned (-1) ∧
    observedStatus (main w args).outcome = some 255 ∧
    observedStatus (main w args).outcome ≠ some 0 ∧
    exitStatus (-1) = 255 := by
  have ho : (main w args).outcome = Outcome.returned (-1) :=
    failed_execv_outcome w args p v (-1) hfail
  rw [ho]
  refine ⟨rfl, ?_, ?_, ?_⟩
  · simp [observedStatus, exitStatus]
  · simp [observedStatus, exitStatus]
  · simp [exitStatus]

/-- Witness for C10: `launcher` with the target missing is observed to exit
with status 255. -/
theorem main_exit_status_255_witness :
    (main missingTarget bareArgs).outcome = Outcome.returned (-1) ∧
    observedStatus (main missingTarget bareArgs).outcome = some 255 ∧
    observedStatus (main missingTarget bareArgs).outcome ≠ some 0 ∧
    exitStatus (-1) = 255 :=
  main_exit_status_255 missingTarget bareArgs qshPath [qshPath]
    (List.Mem.tail _ (List.Mem.tail _ (List.Mem.head _)))

end Cqsh
